import Mathlib

/-!
Shallow embedding of the AIngest bundler (github.com/sottey/aingest).

The embedded code is `internal/bundler/bundler.go` (the `Bundler` type,
`BuildBundle`, `detectMIME`, `classifyType`) together with the schema
structs of `internal/schema` and the behaviour of Go's `filepath.Walk`,
`filepath.Ext` and `filepath.Rel` as used by `BuildBundle`.

Modelling choices:
* `int64` / `int` are modelled as `Int` (no claim concerns overflow);
  `time.Time` values are modelled as `Int` instants; `float64` is modelled
  as `ℚ` (the program performs no floating arithmetic on `AvgTokens`:
  the field only ever holds the zero value, which `ℚ` represents exactly).
* The filesystem seen by one `BuildBundle` run is a tree `FSTree`:
  a regular file with its size and modification time, a directory with its
  children listed in the (sorted) order in which `filepath.Walk` visits
  them, or a `bad` entry whose `lstat` fails with a message (an unreadable
  or vanished entry).  Go's nil maps are modelled as empty lists, nil
  pointers as `Option.none`.
-/

namespace AIngest

/-- The part of `os.FileInfo` consumed by the walk callback: `Name()`,
`Size()`, `ModTime()`, `IsDir()`. -/
structure FileInfo where
  name : String
  size : Int
  modTime : Int
  isDir : Bool
deriving Repr, DecidableEq

mutual

/-- A filesystem subtree: the input of one `BuildBundle` run.  Children of a
`dir` are listed in walk order (Go's `readDirNames` sorts them; the model
takes them already sorted).  A `bad` entry is one whose `lstat` fails with
the given message. -/
inductive FSTree where
  | file (name : String) (size : Int) (modTime : Int) : FSTree
  | bad (name : String) (msg : String) : FSTree
  | dir (name : String) (children : FSForest) : FSTree

/-- A list of sibling subtrees, in walk order. -/
inductive FSForest where
  | nil : FSForest
  | cons (head : FSTree) (tail : FSForest) : FSForest

end

/-- The base name of an entry. -/
def FSTree.name : FSTree → String
  | .file n _ _ => n
  | .bad n _ => n
  | .dir n _ => n

/-- Whether the entry is a directory: `fileInfo.IsDir()` as tested by
`filepath.Walk` on a successfully stat-ed entry. -/
def FSTree.isDirB : FSTree → Bool
  | .dir _ _ => true
  | _ => false

/-- Helper for `filepathExt`: scan the reversed character list of the path,
rebuilding the suffix; stop with `""` at a path separator, return the
suffix from the final dot otherwise (mirrors the loop in Go's
`filepath.Ext`). -/
def extFrom : List Char → List Char → String
  | [], _ => ""
  | c :: rest, acc =>
    if c = '/' then ""
    else if c = '.' then String.mk (c :: acc)
    else extFrom rest (c :: acc)

/-- Go's `filepath.Ext`: the suffix beginning at the final dot in the final
element of `path`, empty if there is no dot. -/
def filepathExt (p : String) : String := extFrom p.data.reverse []

/-- Boolean prefix test on character lists (kernel-reducible counterpart of
`String.isPrefixOf`). -/
def isPrefixList : List Char → List Char → Bool
  | [], _ => true
  | _ :: _, [] => false
  | a :: as, b :: bs => a = b && isPrefixList as bs

/-- Go's `filepath.Rel(root, path)`, restricted to the lexical cases that
arise in `BuildBundle` (the walk only produces `root` itself and paths of
the form `root ++ "/" ++ ...`; `BuildBundle` discards the error return). -/
def filepathRel (root p : String) : String :=
  if p = root then "."
  else if isPrefixList (root ++ "/").data p.data then
    String.mk (p.data.drop (root.data.length + 1))
  else p

/-- Struct `schema.SectionData` (the Go field `Type` is spelt `SecType`:
`Type` is a Lean keyword). -/
structure SectionData where
  ID : String
  SecType : String
  Heading : String
  Language : String
  Content : String
  Items : List String
  Table : List (List String)
  Attributes : List (String × String)
deriving Repr, DecidableEq

/-- Struct `schema.DocumentData`. -/
structure DocumentData where
  Title : String
  Summary : String
  Sections : List SectionData
deriving Repr, DecidableEq

/-- Struct `schema.FileBundle` (one FileRecord). -/
structure FileBundle where
  Path : String
  RelativePath : String
  Name : String
  Extension : String
  MIMEType : String
  FileType : String
  Language : String
  Encoding : String
  SizeBytes : Int
  Hash : String
  CreatedAt : Int
  ModifiedAt : Int
  TokenCount : Int
  Metadata : List (String × String)
  Document : Option DocumentData
deriving Repr, DecidableEq

/-- Struct `schema.SummaryInfo`. -/
structure SummaryInfo where
  TotalFiles : Nat
  TotalTokens : Int
  TotalSize : Int
  AvgTokens : ℚ
  LargestFile : String
  LargestTokens : Int
  EstimatedModel : String
deriving Repr, DecidableEq

/-- Struct `schema.Bundle` (the `*SummaryInfo` pointer is modelled by
value: the code always allocates it). -/
structure Bundle where
  Version : String
  CreatedAt : Int
  SourceDir : String
  Description : String
  Files : List FileBundle
  Summary : SummaryInfo
  Generator : String
  TokenSettings : List (String × String)
deriving Repr, DecidableEq

/-- Struct `bundler.Bundler`. -/
structure Bundler where
  RootPath : String
  Recursive : Bool
deriving Repr, DecidableEq

/-- Function `detectMIME` (bundler.go): a simple MIME guess based on
extension. -/
def detectMIME (path : String) : String :=
  let ext := filepathExt path
  if ext = ".md" then "text/markdown"
  else if ext = ".txt" then "text/plain"
  else if ext = ".json" then "application/json"
  else if ext = ".go" then "text/x-go"
  else if ext = ".rtf" then "application/rtf"
  else "application/octet-stream"

/-- Function `classifyType` (bundler.go): a broad category for a file. -/
def classifyType (ext : String) : String :=
  if ext = ".go" ∨ ext = ".js" ∨ ext = ".ts" ∨ ext = ".py" ∨ ext = ".cs" ∨
      ext = ".java" then "code"
  else if ext = ".json" ∨ ext = ".yaml" ∨ ext = ".yml" ∨ ext = ".toml" ∨
      ext = ".plist" ∨ ext = ".csv" then "data"
  else if ext = ".md" ∨ ext = ".txt" ∨ ext = ".rtf" then "text"
  else "binary"

/-- The `schema.FileBundle` literal built for one regular file inside the
walk callback of `BuildBundle` (fields not listed in the literal take Go's
zero value: empty string, nil map, nil pointer, zero int). -/
def fileRecord (b : Bundler) (path : String) (info : FileInfo) : FileBundle :=
  { Path := path
    RelativePath := filepathRel b.RootPath path
    Name := info.name
    Extension := filepathExt path
    MIMEType := detectMIME path
    FileType := classifyType (filepathExt path)
    Language := ""
    Encoding := ""
    SizeBytes := info.size
    Hash := ""
    CreatedAt := info.modTime
    ModifiedAt := info.modTime
    TokenCount := 0
    Metadata := []
    Document := none }

/-- The two non-nil errors the walk callback can produce: `filepath.SkipDir`
or a hard error carrying a message. -/
inductive WalkSignal where
  | skipDir : WalkSignal
  | fail (msg : String) : WalkSignal
deriving Repr, DecidableEq

/-- The walk callback of `BuildBundle`, with the closed-over `files` slice
passed explicitly: propagates an incoming error, prunes directories in
non-recursive mode (except the root), and appends a metadata record for a
regular file.  (`info` is `none` exactly when `err` is set, as in
`filepath.Walk`; the `none`/`none` case is unreachable.) -/
def walkFn (b : Bundler) (path : String) (info : Option FileInfo)
    (err : Option String) (files : List FileBundle) :
    List FileBundle × Option WalkSignal :=
  match err with
  | some e => (files, some (.fail e))
  | none =>
    match info with
    | none => (files, some (.fail "missing fileinfo"))
    | some i =>
      if i.isDir then
        if b.Recursive = false ∧ path ≠ b.RootPath then (files, some .skipDir)
        else (files, none)
      else (files ++ [fileRecord b path i], none)

mutual

/-- Go's internal `walk(path, info, walkFn)` specialised to the callback of
`BuildBundle`: called only on entries whose `lstat` succeeded (so never on a
`bad` node — the parent loop in `walkSiblings` intercepts those; the `bad`
equation here is dead).  For a non-directory it just invokes the callback;
for a directory it invokes the callback and then, unless the callback
returned an error or `SkipDir`, walks the children. -/
def walkTree (b : Bundler) (t : FSTree) (path : String)
    (files : List FileBundle) : List FileBundle × Option WalkSignal :=
  match t with
  | .file n s m => walkFn b path (some ⟨n, s, m, false⟩) none files
  | .bad n _ => walkFn b path (some ⟨n, 0, 0, false⟩) none files
  | .dir n children =>
    match walkFn b path (some ⟨n, 0, 0, true⟩) none files with
    | (fs, some e) => (fs, some e)
    | (fs, none) => walkSiblings b children path fs

/-- The loop over a directory's children inside Go's `walk`: `lstat` each
child; on failure hand the error to the callback (continuing unless it
returns a non-`SkipDir` error), on success recurse, where `SkipDir` from a
directory child is absorbed and from a file child propagates. -/
def walkSiblings (b : Bundler) (f : FSForest) (dirPath : String)
    (files : List FileBundle) : List FileBundle × Option WalkSignal :=
  match f with
  | .nil => (files, none)
  | .cons c rest =>
    let filename := dirPath ++ "/" ++ c.name
    match c with
    | .bad _ msg =>
      match walkFn b filename none (some msg) files with
      | (fs, some .skipDir) => walkSiblings b rest dirPath fs
      | (fs, some (.fail m)) => (fs, some (.fail m))
      | (fs, none) => walkSiblings b rest dirPath fs
    | _ =>
      match walkTree b c filename files with
      | (fs, none) => walkSiblings b rest dirPath fs
      | (fs, some .skipDir) =>
        if c.isDirB then walkSiblings b rest dirPath fs
        else (fs, some .skipDir)
      | (fs, some (.fail m)) => (fs, some (.fail m))

end

/-- The tail of Go's `filepath.Walk`: a trailing `SkipDir` is turned into
success, a hard error is returned as the walk's error. -/
def walkFinish : List FileBundle × Option WalkSignal →
    List FileBundle × Option String
  | (fs, some (.fail m)) => (fs, some m)
  | (fs, _) => (fs, none)

/-- Go's `filepath.Walk(root, walkFn)` for the callback of `BuildBundle`:
`lstat` the root (feeding a root-level failure to the callback), walk, and
finish with `walkFinish`. -/
def filepathWalk (b : Bundler) (root : FSTree) :
    List FileBundle × Option String :=
  walkFinish
    (match root with
     | .bad _ msg => walkFn b b.RootPath none (some msg) []
     | t => walkTree b t b.RootPath [])

/-- Method `(*Bundler).BuildBundle` (bundler.go): walk the root collecting
metadata records, abort on any walk error, then build the summary
(`TotalFiles`, `TotalSize`; every other summary field keeps its zero
value) and the bundle.  `now` models the call to `time.Now()`. -/
def BuildBundle (b : Bundler) (now : Int) (root : FSTree) :
    Except String Bundle :=
  match filepathWalk b root with
  | (_, some e) => .error e
  | (files, none) =>
    let totalSize := files.foldl (fun acc f => acc + f.SizeBytes) 0
    let summary : SummaryInfo :=
      { TotalFiles := files.length
        TotalTokens := 0
        TotalSize := totalSize
        AvgTokens := 0
        LargestFile := ""
        LargestTokens := 0
        EstimatedModel := "" }
    .ok
      { Version := "1.0"
        CreatedAt := now
        SourceDir := b.RootPath
        Description := "Generated bundle (metadata only)"
        Files := files
        Summary := summary
        Generator := "aingest v0.1.0"
        TokenSettings := [] }

mutual

/-- Whether no entry of the subtree has a failing `lstat`. -/
def noBad : FSTree → Bool
  | .file _ _ _ => true
  | .bad _ _ => false
  | .dir _ children => noBadF children

/-- Whether no entry of the forest has a failing `lstat`. -/
def noBadF : FSForest → Bool
  | .nil => true
  | .cons c rest => noBad c && noBadF rest

end

/-- The records a non-recursive walk of the root's children produces:
one `fileRecord` per regular file that is an immediate child, in walk
order; directory subtrees contribute nothing. -/
def immediateFiles (b : Bundler) (dirPath : String) : FSForest → List FileBundle
  | .nil => []
  | .cons (.file n s m) rest =>
    fileRecord b (dirPath ++ "/" ++ n) ⟨n, s, m, false⟩ ::
      immediateFiles b dirPath rest
  | .cons _ rest => immediateFiles b dirPath rest

mutual

/-- The records a recursive walk of one subtree produces: every regular
file at any depth, in depth-first walk order. -/
def dfsFiles (b : Bundler) (path : String) : FSTree → List FileBundle
  | .file n s m => [fileRecord b path ⟨n, s, m, false⟩]
  | .bad _ _ => []
  | .dir _ children => dfsForest b path children

/-- The records a recursive walk of a forest of siblings produces. -/
def dfsForest (b : Bundler) (dirPath : String) : FSForest → List FileBundle
  | .nil => []
  | .cons c rest =>
    dfsFiles b (dirPath ++ "/" ++ c.name) c ++ dfsForest b dirPath rest

end

/-- A sample directory: two regular files. -/
def sampleRoot : FSTree :=
  .dir "r" (.cons (.file "a.txt" 3 7) (.cons (.file "b.md" 4 9) .nil))

/-- The bundle produced by a non-recursive build over `sampleRoot`
(the `getD` default is never used: the build succeeds). -/
def sampleBundle : Bundle :=
  ((BuildBundle ⟨"/r", false⟩ 0 sampleRoot).toOption).getD
    { Version := "", CreatedAt := 0, SourceDir := "", Description := "",
      Files := [],
      Summary := { TotalFiles := 0, TotalTokens := 0, TotalSize := 0,
                   AvgTokens := 0, LargestFile := "", LargestTokens := 0,
                   EstimatedModel := "" },
      Generator := "", TokenSettings := [] }

/-- One record of `sampleBundle`. -/
def sampleFile : FileBundle :=
  fileRecord ⟨"/r", false⟩ "/r/a.txt" ⟨"a.txt", 3, 7, false⟩

/-- A sample forest with a file and a populated subdirectory. -/
def nestedForest : FSForest :=
  .cons (.file "a.txt" 3 7)
    (.cons (.dir "sub" (.cons (.file "b.md" 4 9) .nil)) .nil)

/-- The bundle produced by a non-recursive build over the nested sample
(the `getD` default is never used: the build succeeds). -/
def nestedBundle : Bundle :=
  ((BuildBundle ⟨"/r", false⟩ 0 (.dir "r" nestedForest)).toOption).getD
    { Version := "", CreatedAt := 0, SourceDir := "", Description := "",
      Files := [],
      Summary := { TotalFiles := 0, TotalTokens := 0, TotalSize := 0,
                   AvgTokens := 0, LargestFile := "", LargestTokens := 0,
                   EstimatedModel := "" },
      Generator := "", TokenSettings := [] }

/-- A sample directory containing an unreadable entry and a readable file. -/
def badTree : FSTree :=
  .dir "r" (.cons (.bad "locked.txt" "permission denied")
    (.cons (.file "ok.txt" 5 0) .nil))

/-- Characterisation of a successful `BuildBundle`: the walk ended without
error and the bundle is exactly the literal built afterwards. -/
theorem BuildBundle_ok {b : Bundler} {now : Int} {root : FSTree} {out : Bundle}
    (h : BuildBundle b now root = .ok out) :
    ∃ files, filepathWalk b root = (files, none) ∧
      out = { Version := "1.0", CreatedAt := now, SourceDir := b.RootPath,
              Description := "Generated bundle (metadata only)",
              Files := files,
              Summary := { TotalFiles := files.length, TotalTokens := 0,
                           TotalSize := files.foldl (fun acc f => acc + f.SizeBytes) 0,
                           AvgTokens := 0, LargestFile := "", LargestTokens := 0,
                           EstimatedModel := "" },
              Generator := "aingest v0.1.0", TokenSettings := [] } := by
  unfold BuildBundle at h
  rcases hw : filepathWalk b root with ⟨files, err⟩
  rw [hw] at h
  cases err with
  | none =>
    refine ⟨files, rfl, ?_⟩
    simpa using h.symm
  | some e => simp at h

/-- The running-total loop of `BuildBundle` computes the sum of sizes. -/
theorem foldl_size (l : List FileBundle) (acc : Int) :
    l.foldl (fun a f => a + f.SizeBytes) acc = acc + (l.map (·.SizeBytes)).sum := by
  induction l generalizing acc with
  | nil => simp
  | cons f t ih => simp [List.foldl_cons, ih, add_assoc]

/-- Finishing the walk keeps the accumulated records unchanged. -/
theorem walkFinish_fst (x : List FileBundle × Option WalkSignal) :
    (walkFinish x).1 = x.1 := by
  rcases x with ⟨fs, e⟩
  cases e with
  | none => rfl
  | some e => cases e <;> rfl

/-- Every record the walk callback adds is a `fileRecord`. -/
theorem walkFn_mem (b : Bundler) (path : String) (info : Option FileInfo)
    (err : Option String) (files : List FileBundle) :
    ∀ f ∈ (walkFn b path info err files).1,
      f ∈ files ∨ ∃ p i, f = fileRecord b p i := by
  intro f hf
  cases err with
  | some e => exact .inl hf
  | none =>
    cases info with
    | none => exact .inl hf
    | some i =>
      simp only [walkFn] at hf
      split at hf
      · split at hf
        · exact .inl hf
        · exact .inl hf
      · simp only [List.mem_append, List.mem_singleton] at hf
        rcases hf with h | h
        · exact .inl h
        · exact .inr ⟨path, i, h⟩

mutual

/-- Every record accumulated by the walk of one subtree is either carried
over or a `fileRecord`. -/
theorem walkTree_mem (b : Bundler) (t : FSTree) (path : String)
    (files : List FileBundle) :
    ∀ f ∈ (walkTree b t path files).1,
      f ∈ files ∨ ∃ p i, f = fileRecord b p i := by
  match t with
  | .file n s m => exact walkFn_mem b path _ none files
  | .bad n msg => exact walkFn_mem b path _ none files
  | .dir n children =>
    intro f hf
    simp only [walkTree] at hf
    split at hf
    case _ fs e heq =>
      exact walkFn_mem b path _ none files f (by rw [heq]; exact hf)
    case _ fs heq =>
      rcases walkSiblings_mem b children path fs f hf with h | h
      · exact walkFn_mem b path _ none files f (by rw [heq]; exact h)
      · exact .inr h

/-- Every record accumulated by the walk of a forest of siblings is either
carried over or a `fileRecord`. -/
theorem walkSiblings_mem (b : Bundler) (fo : FSForest) (dirPath : String)
    (files : List FileBundle) :
    ∀ f ∈ (walkSiblings b fo dirPath files).1,
      f ∈ files ∨ ∃ p i, f = fileRecord b p i := by
  match fo with
  | .nil => intro f hf; exact .inl hf
  | .cons c rest =>
    intro f hf
    cases c with
    | bad n msg =>
      simp only [walkSiblings, walkFn] at hf
      exact .inl hf
    | file n s m =>
      simp only [walkSiblings, FSTree.name] at hf
      split at hf
      next fs heq =>
        rcases walkSiblings_mem b rest dirPath fs f hf with h | h
        · exact walkTree_mem b (.file n s m) (dirPath ++ "/" ++ n) files f
            (by rw [heq]; exact h)
        · exact .inr h
      next fs heq =>
        simp [FSTree.isDirB] at hf
        exact walkTree_mem b (.file n s m) (dirPath ++ "/" ++ n) files f
          (by rw [heq]; exact hf)
      next fs m' heq =>
        exact walkTree_mem b (.file n s m) (dirPath ++ "/" ++ n) files f
          (by rw [heq]; exact hf)
    | dir n ch =>
      simp only [walkSiblings, FSTree.name] at hf
      split at hf
      next fs heq =>
        rcases walkSiblings_mem b rest dirPath fs f hf with h | h
        · exact walkTree_mem b (.dir n ch) (dirPath ++ "/" ++ n) files f
            (by rw [heq]; exact h)
        · exact .inr h
      next fs heq =>
        simp only [FSTree.isDirB, if_pos] at hf
        rcases walkSiblings_mem b rest dirPath fs f hf with h | h
        · exact walkTree_mem b (.dir n ch) (dirPath ++ "/" ++ n) files f
            (by rw [heq]; exact h)
        · exact .inr h
      next fs m' heq =>
        exact walkTree_mem b (.dir n ch) (dirPath ++ "/" ++ n) files f
          (by rw [heq]; exact hf)

end

/-- Every record produced by a full walk is a `fileRecord`. -/
theorem filepathWalk_mem (b : Bundler) (root : FSTree) :
    ∀ f ∈ (filepathWalk b root).1, ∃ p i, f = fileRecord b p i := by
  intro f hf
  unfold filepathWalk at hf
  rw [walkFinish_fst] at hf
  cases root with
  | bad n msg => exact absurd hf (List.not_mem_nil f)
  | file n s m =>
    rcases walkTree_mem b _ _ [] f hf with h | h
    · exact absurd h (List.not_mem_nil f)
    · exact h
  | dir n ch =>
    rcases walkTree_mem b _ _ [] f hf with h | h
    · exact absurd h (List.not_mem_nil f)
    · exact h

/-- Fields of every record built by the walk callback: token count zero,
no document, no hash, no language, no encoding, empty metadata, and both
timestamps equal to the entry's modification time. -/
theorem fileRecord_fields (b : Bundler) (p : String) (i : FileInfo) :
    (fileRecord b p i).TokenCount = 0 ∧ (fileRecord b p i).Document = none ∧
    (fileRecord b p i).Hash = "" ∧ (fileRecord b p i).Language = "" ∧
    (fileRecord b p i).Encoding = "" ∧ (fileRecord b p i).Metadata = [] ∧
    (fileRecord b p i).CreatedAt = i.modTime ∧
    (fileRecord b p i).ModifiedAt = i.modTime :=
  ⟨rfl, rfl, rfl, rfl, rfl, rfl, rfl, rfl⟩

/-- C8: every FileRecord in a bundle returned by a successful `BuildBundle`
has `TokenCount = 0`, no `Document`, and no `Hash`, `Language`, `Encoding`
or `Metadata`; the pipeline records metadata only, and `Summary.TotalTokens`
is always `0`. -/
theorem C8_metadata_only (b : Bundler) (now : Int) (root : FSTree)
    (out : Bundle) (h : BuildBundle b now root = .ok out) :
    out.Summary.TotalTokens = 0 ∧
    ∀ f ∈ out.Files, f.TokenCount = 0 ∧ f.Document = none ∧ f.Hash = "" ∧
      f.Language = "" ∧ f.Encoding = "" ∧ f.Metadata = [] := by
  obtain ⟨files, hw, rfl⟩ := BuildBundle_ok h
  refine ⟨rfl, ?_⟩
  intro f hf
  obtain ⟨p, i, rfl⟩ := filepathWalk_mem b root f (by rw [hw]; exact hf)
  obtain ⟨h1, h2, h3, h4, h5, h6, -, -⟩ := fileRecord_fields b p i
  exact ⟨h1, h2, h3, h4, h5, h6⟩

/-- C8 witness: the sample build has zero total tokens and its first record
carries no content fields. -/
theorem C8_witness :
    sampleBundle.Summary.TotalTokens = 0 ∧
    sampleFile.TokenCount = 0 ∧ sampleFile.Document = none ∧
    sampleFile.Hash = "" ∧ sampleFile.Language = "" ∧
    sampleFile.Encoding = "" ∧ sampleFile.Metadata = [] := by
  obtain ⟨h0, hall⟩ :=
    C8_metadata_only ⟨"/r", false⟩ 0 sampleRoot sampleBundle (by rfl)
  exact ⟨h0, hall sampleFile (by decide)⟩

/-- C9: every FileRecord in a bundle returned by `BuildBundle` has
`CreatedAt` equal to `ModifiedAt`, and the record constructor populates
both fields from the entry's modification time. -/
theorem C9_created_is_modified (b : Bundler) (now : Int) (root : FSTree)
    (out : Bundle) (h : BuildBundle b now root = .ok out) :
    (∀ f ∈ out.Files, f.CreatedAt = f.ModifiedAt) ∧
    (∀ (b' : Bundler) (p : String) (i : FileInfo),
      (fileRecord b' p i).CreatedAt = i.modTime ∧
      (fileRecord b' p i).ModifiedAt = i.modTime) := by
  obtain ⟨files, hw, rfl⟩ := BuildBundle_ok h
  refine ⟨?_, fun b' p i => ⟨rfl, rfl⟩⟩
  intro f hf
  obtain ⟨p, i, rfl⟩ := filepathWalk_mem b root f (by rw [hw]; exact hf)
  rfl

/-- C9 witness: the sample record has equal timestamps, both from the
modification time `7`. -/
theorem C9_witness :
    sampleFile.CreatedAt = sampleFile.ModifiedAt ∧
    sampleFile.CreatedAt = (7 : Int) := by
  obtain ⟨hall, hmk⟩ :=
    C9_created_is_modified ⟨"/r", false⟩ 0 sampleRoot sampleBundle (by rfl)
  exact ⟨hall sampleFile (by decide), (hmk ⟨"/r", false⟩ "/r/a.txt" ⟨"a.txt", 3, 7, false⟩).1⟩

/-- A path the walk joins onto a directory is never the directory itself
(it is strictly longer). -/
theorem joined_ne (r n : String) : r ++ "/" ++ n ≠ r := by
  intro h
  have hl := congrArg String.length h
  rw [String.length_append, String.length_append] at hl
  have : ("/" : String).length = 1 := rfl
  omega

mutual

/-- In recursive mode, walking a subtree with no failing entry succeeds and
appends exactly the depth-first records of the subtree. -/
theorem walkTree_recursive (b : Bundler) (hrec : b.Recursive = true)
    (t : FSTree) (hb : noBad t = true) (path : String)
    (files : List FileBundle) :
    walkTree b t path files = (files ++ dfsFiles b path t, none) := by
  match t with
  | .file n s m => simp [walkTree, walkFn, dfsFiles]
  | .bad n msg => simp [noBad] at hb
  | .dir n children =>
    have hbc : noBadF children = true := by simpa [noBad] using hb
    have hfn : walkFn b path (some ⟨n, 0, 0, true⟩) none files =
        (files, none) := by
      simp [walkFn, hrec]
    simp only [walkTree, hfn]
    rw [walkSiblings_recursive b hrec children hbc path files]
    simp [dfsFiles]

/-- In recursive mode, walking a forest with no failing entry succeeds and
appends exactly its depth-first records. -/
theorem walkSiblings_recursive (b : Bundler) (hrec : b.Recursive = true)
    (fo : FSForest) (hb : noBadF fo = true) (dirPath : String)
    (files : List FileBundle) :
    walkSiblings b fo dirPath files =
      (files ++ dfsForest b dirPath fo, none) := by
  match fo with
  | .nil => simp [walkSiblings, dfsForest]
  | .cons c rest =>
    have hbc : noBad c = true ∧ noBadF rest = true := by
      simpa [noBadF, Bool.and_eq_true] using hb
    cases c with
    | bad n msg => simp [noBad] at hbc
    | file n s m =>
      simp only [walkSiblings, FSTree.name]
      rw [walkTree_recursive b hrec (.file n s m) hbc.1 (dirPath ++ "/" ++ n) files]
      show walkSiblings b rest dirPath
          (files ++ dfsFiles b (dirPath ++ "/" ++ n) (.file n s m)) = _
      rw [walkSiblings_recursive b hrec rest hbc.2 dirPath _]
      simp [dfsForest, dfsFiles, FSTree.name]
    | dir n ch =>
      simp only [walkSiblings, FSTree.name]
      rw [walkTree_recursive b hrec (.dir n ch) hbc.1 (dirPath ++ "/" ++ n) files]
      show walkSiblings b rest dirPath
          (files ++ dfsFiles b (dirPath ++ "/" ++ n) (.dir n ch)) = _
      rw [walkSiblings_recursive b hrec rest hbc.2 dirPath _]
      simp [dfsForest, dfsFiles, FSTree.name]

end

/-- In recursive mode, a forest containing a failing entry aborts the walk
with a hard error. -/
theorem walkSiblings_bad (b : Bundler) (hrec : b.Recursive = true)
    (fo : FSForest) (hb : noBadF fo = false) (dirPath : String)
    (files : List FileBundle) :
    ∃ fs m, walkSiblings b fo dirPath files = (fs, some (.fail m)) := by
  match fo with
  | .nil => simp [noBadF] at hb
  | .cons c rest =>
    cases c with
    | bad n msg =>
      refine ⟨files, msg, ?_⟩
      simp [walkSiblings, walkFn]
    | file n s m =>
      have hbr : noBadF rest = false := by simpa [noBadF, noBad] using hb
      obtain ⟨fs, msg, h⟩ := walkSiblings_bad b hrec rest hbr dirPath
        (files ++ [fileRecord b (dirPath ++ "/" ++ n) ⟨n, s, m, false⟩])
      refine ⟨fs, msg, ?_⟩
      simp only [walkSiblings, FSTree.name]
      rw [walkTree_recursive b hrec (.file n s m) (by simp [noBad])
        (dirPath ++ "/" ++ n) files]
      show walkSiblings b rest dirPath
          (files ++ dfsFiles b (dirPath ++ "/" ++ n) (.file n s m)) = _
      exact h
    | dir n ch =>
      by_cases hc : noBadF ch = true
      · have hbr : noBadF rest = false := by
          simpa [noBadF, noBad, hc] using hb
        obtain ⟨fs, msg, h⟩ := walkSiblings_bad b hrec rest hbr dirPath
          (files ++ dfsForest b (dirPath ++ "/" ++ n) ch)
        refine ⟨fs, msg, ?_⟩
        simp only [walkSiblings, FSTree.name]
        rw [walkTree_recursive b hrec (.dir n ch) (by simpa [noBad] using hc)
          (dirPath ++ "/" ++ n) files]
        show walkSiblings b rest dirPath
            (files ++ dfsFiles b (dirPath ++ "/" ++ n) (.dir n ch)) = _
        exact h
      · have hc2 : noBadF ch = false := by simpa using hc
        obtain ⟨fs, msg, h⟩ := walkSiblings_bad b hrec ch hc2
          (dirPath ++ "/" ++ n) files
        refine ⟨fs, msg, ?_⟩
        simp only [walkSiblings, FSTree.name]
        have hfn : walkFn b (dirPath ++ "/" ++ n) (some ⟨n, 0, 0, true⟩)
            none files = (files, none) := by
          simp [walkFn, hrec]
        have ht : walkTree b (.dir n ch) (dirPath ++ "/" ++ n) files =
            (fs, some (.fail msg)) := by
          simp only [walkTree, hfn]
          exact h
        rw [ht]

/-- C2 counterexample: a directory whose first entry fails `lstat` makes
`BuildBundle` return that error instead of a bundle, although a readable
file follows; the per-entry failure aborts the whole build. -/
theorem C2_counterexample :
    BuildBundle ⟨"/r", true⟩ 0 badTree = .error "permission denied" := by rfl

/-- C2 (amended): any error the walk encounters — a per-entry `lstat`
failure included — aborts the whole build, and `BuildBundle` returns the
error and no bundle; errors are never recorded in a record's metadata
(every record of every successful bundle has empty metadata). -/
theorem C2_errors_abort :
    (∀ (b : Bundler) (now : Int) (root : FSTree), b.Recursive = true →
        noBad root = false → (BuildBundle b now root).toOption = none) ∧
    (∀ (b : Bundler) (now : Int) (root : FSTree) (out : Bundle),
        BuildBundle b now root = .ok out → ∀ f ∈ out.Files, f.Metadata = []) := by
  constructor
  · intro b now root hrec hb
    cases root with
    | bad n msg => rfl
    | file n s m => simp [noBad] at hb
    | dir n ch =>
      have hbc : noBadF ch = false := by simpa [noBad] using hb
      obtain ⟨fs, msg, hws⟩ := walkSiblings_bad b hrec ch hbc b.RootPath []
      have hfn : walkFn b b.RootPath (some ⟨n, 0, 0, true⟩) none [] =
          ([], none) := by
        simp [walkFn]
      have ht : walkTree b (.dir n ch) b.RootPath [] =
          (fs, some (.fail msg)) := by
        simp only [walkTree, hfn]
        exact hws
      have hfw : filepathWalk b (.dir n ch) = (fs, some msg) := by
        show walkFinish (walkTree b (.dir n ch) b.RootPath []) = _
        rw [ht]
        rfl
      have : BuildBundle b now (.dir n ch) = .error msg := by
        unfold BuildBundle
        rw [hfw]
      rw [this]
      rfl
  · intro b now root out h f hf
    obtain ⟨files, hw, rfl⟩ := BuildBundle_ok h
    obtain ⟨p, i, rfl⟩ := filepathWalk_mem b root f (by rw [hw]; exact hf)
    rfl

/-- C2 witness: the concrete bad directory yields no bundle, and a record
of the sample build has empty metadata. -/
theorem C2_witness :
    (BuildBundle ⟨"/r", true⟩ 0 badTree).toOption = none ∧
    sampleFile.Metadata = [] :=
  ⟨C2_errors_abort.1 ⟨"/r", true⟩ 0 badTree rfl rfl,
   C2_errors_abort.2 ⟨"/r", false⟩ 0 sampleRoot sampleBundle (by rfl)
     sampleFile (by decide)⟩

/-- In non-recursive mode, walking the root's children from the root path
either aborts on a failing entry or appends exactly the records of the
immediate regular-file children: every directory child is pruned whole. -/
theorem walkSiblings_nonrecursive (b : Bundler) (hrec : b.Recursive = false)
    (fo : FSForest) (files : List FileBundle) :
    (∃ fs m, walkSiblings b fo b.RootPath files = (fs, some (.fail m))) ∨
    walkSiblings b fo b.RootPath files =
      (files ++ immediateFiles b b.RootPath fo, none) := by
  match fo with
  | .nil => right; simp [walkSiblings, immediateFiles]
  | .cons c rest =>
    cases c with
    | bad n msg =>
      left
      exact ⟨files, msg, by simp [walkSiblings, walkFn]⟩
    | file n s m =>
      have ht : walkTree b (.file n s m) (b.RootPath ++ "/" ++ n) files =
          (files ++ [fileRecord b (b.RootPath ++ "/" ++ n) ⟨n, s, m, false⟩],
            none) := by
        simp [walkTree, walkFn]
      rcases walkSiblings_nonrecursive b hrec rest
          (files ++ [fileRecord b (b.RootPath ++ "/" ++ n) ⟨n, s, m, false⟩])
        with ⟨fs, msg, h⟩ | h
      · left
        refine ⟨fs, msg, ?_⟩
        simp only [walkSiblings, FSTree.name]
        rw [ht]
        show walkSiblings b rest b.RootPath
            (files ++ [fileRecord b (b.RootPath ++ "/" ++ n) ⟨n, s, m, false⟩]) = _
        exact h
      · right
        simp only [walkSiblings, FSTree.name]
        rw [ht]
        show walkSiblings b rest b.RootPath
            (files ++ [fileRecord b (b.RootPath ++ "/" ++ n) ⟨n, s, m, false⟩]) = _
        rw [h]
        simp [immediateFiles]
    | dir n ch =>
      have hfn : walkFn b (b.RootPath ++ "/" ++ n)
          (some ⟨n, 0, 0, true⟩) none files = (files, some .skipDir) := by
        simp [walkFn, hrec, joined_ne]
      have ht : walkTree b (.dir n ch) (b.RootPath ++ "/" ++ n) files =
          (files, some .skipDir) := by
        simp only [walkTree, hfn]
      rcases walkSiblings_nonrecursive b hrec rest files with ⟨fs, msg, h⟩ | h
      · left
        refine ⟨fs, msg, ?_⟩
        simp only [walkSiblings, FSTree.name]
        rw [ht]
        show (if (FSTree.dir n ch).isDirB = true then
            walkSiblings b rest b.RootPath files
          else (files, some .skipDir)) = _
        rw [if_pos (show (FSTree.dir n ch).isDirB = true from rfl)]
        exact h
      · right
        simp only [walkSiblings, FSTree.name]
        rw [ht]
        show (if (FSTree.dir n ch).isDirB = true then
            walkSiblings b rest b.RootPath files
          else (files, some .skipDir)) = _
        rw [if_pos (show (FSTree.dir n ch).isDirB = true from rfl), h]
        simp [immediateFiles]

/-- C3: in non-recursive mode a successful `BuildBundle` over a directory
contains exactly the immediate regular-file children of the root — every
entry inside a subdirectory, at any depth, is absent, the whole subtree
being pruned; in recursive mode (with no failing entry) the build descends
into subdirectories and contains every file of the tree in depth-first walk
order. -/
theorem C3_subtree_pruning :
    (∀ (b : Bundler) (now : Int) (n : String) (children : FSForest)
        (out : Bundle), b.Recursive = false →
        BuildBundle b now (.dir n children) = .ok out →
        out.Files = immediateFiles b b.RootPath children) ∧
    (∀ (b : Bundler) (now : Int) (n : String) (children : FSForest),
        b.Recursive = true → noBadF children = true →
        (BuildBundle b now (.dir n children)).toOption.map (·.Files) =
          some (dfsForest b b.RootPath children)) := by
  constructor
  · intro b now n children out hrec h
    obtain ⟨files, hw, rfl⟩ := BuildBundle_ok h
    have hfn : walkFn b b.RootPath (some ⟨n, 0, 0, true⟩) none [] =
        ([], none) := by
      simp [walkFn]
    have hft : filepathWalk b (.dir n children) =
        walkFinish (walkSiblings b children b.RootPath []) := by
      show walkFinish (walkTree b (.dir n children) b.RootPath []) = _
      simp only [walkTree, hfn]
    rcases walkSiblings_nonrecursive b hrec children [] with ⟨fs, msg, hws⟩ | hws
    · rw [hft, hws] at hw
      exact absurd (congrArg Prod.snd hw) (by simp [walkFinish])
    · rw [hft, hws] at hw
      have h2 := congrArg Prod.fst hw
      rw [walkFinish_fst] at h2
      show files = immediateFiles b b.RootPath children
      simpa using h2.symm
  · intro b now n children hrec hb
    have ht := walkTree_recursive b hrec (.dir n children)
      (by simpa [noBad] using hb) b.RootPath []
    have hfw : filepathWalk b (.dir n children) =
        (dfsForest b b.RootPath children, none) := by
      show walkFinish (walkTree b (.dir n children) b.RootPath []) = _
      rw [ht]
      simp [walkFinish, dfsFiles]
    unfold BuildBundle
    rw [hfw]
    rfl

/-- C3 witness: on the nested sample, the non-recursive build keeps only
the immediate file child and the recursive build keeps the nested file
too. -/
theorem C3_witness :
    nestedBundle.Files = immediateFiles ⟨"/r", false⟩ "/r" nestedForest ∧
    (BuildBundle ⟨"/r", true⟩ 0 (.dir "r" nestedForest)).toOption.map
        (·.Files) = some (dfsForest ⟨"/r", true⟩ "/r" nestedForest) :=
  ⟨C3_subtree_pruning.1 ⟨"/r", false⟩ 0 "r" nestedForest nestedBundle rfl
      (by rfl),
   C3_subtree_pruning.2 ⟨"/r", true⟩ 0 "r" nestedForest rfl rfl⟩

/-- C4 counterexample: classification is case-sensitive, so `.MD` and `.md`
do not classify identically — the uppercase variant falls to the
binary/unknown bucket. -/
theorem C4_counterexample :
    classifyType ".MD" = "binary" ∧ classifyType ".md" = "text" ∧
    detectMIME "a.MD" = "application/octet-stream" ∧
    detectMIME "a.md" = "text/markdown" := by
  refine ⟨by decide, by decide, by decide, by decide⟩

/-- C4 (amended): classification (MIME type and category) is a pure, total,
case-sensitive function of the file extension; any extension outside the
fixed lookup tables — uppercase variants like `.MD` included — yields MIME
type `application/octet-stream` and category `binary`; classification
never fails. -/
theorem C4_classification :
    (∀ p q, filepathExt p = filepathExt q → detectMIME p = detectMIME q) ∧
    (∀ p, filepathExt p ≠ ".md" → filepathExt p ≠ ".txt" →
        filepathExt p ≠ ".json" → filepathExt p ≠ ".go" →
        filepathExt p ≠ ".rtf" → detectMIME p = "application/octet-stream") ∧
    (∀ e, e ≠ ".go" → e ≠ ".js" → e ≠ ".ts" → e ≠ ".py" → e ≠ ".cs" →
        e ≠ ".java" → e ≠ ".json" → e ≠ ".yaml" → e ≠ ".yml" → e ≠ ".toml" →
        e ≠ ".plist" → e ≠ ".csv" → e ≠ ".md" → e ≠ ".txt" → e ≠ ".rtf" →
        classifyType e = "binary") := by
  refine ⟨?_, ?_, ?_⟩
  · intro p q h
    simp only [detectMIME, h]
  · intro p h1 h2 h3 h4 h5
    simp only [detectMIME]
    rw [if_neg h1, if_neg h2, if_neg h3, if_neg h4, if_neg h5]
  · intro e h1 h2 h3 h4 h5 h6 h7 h8 h9 h10 h11 h12 h13 h14 h15
    simp only [classifyType]
    rw [if_neg (by simp [h1, h2, h3, h4, h5, h6]),
        if_neg (by simp [h7, h8, h9, h10, h11, h12]),
        if_neg (by simp [h13, h14, h15])]

/-- C4 witness: the uppercase extension `.MD` is outside both tables and
classifies as `application/octet-stream` / `binary`. -/
theorem C4_witness :
    detectMIME "x.MD" = "application/octet-stream" ∧
    classifyType ".MD" = "binary" :=
  ⟨C4_classification.2.1 "x.MD" (by decide) (by decide) (by decide)
      (by decide) (by decide),
   C4_classification.2.2 ".MD" (by decide) (by decide) (by decide) (by decide)
      (by decide) (by decide) (by decide) (by decide) (by decide) (by decide)
      (by decide) (by decide) (by decide) (by decide) (by decide)⟩

/-- C10: whenever `classifyType` of a path's extension is `binary`,
`detectMIME` of that path is `application/octet-stream`; the converse
fails: `.js` and `.py` are `code` and `.yaml` is `data`, yet their MIME
type is still `application/octet-stream`. -/
theorem C10_binary_mime_consistency :
    (∀ p, classifyType (filepathExt p) = "binary" →
        detectMIME p = "application/octet-stream") ∧
    classifyType ".js" = "code" ∧
    detectMIME "a.js" = "application/octet-stream" ∧
    classifyType ".py" = "code" ∧
    detectMIME "a.py" = "application/octet-stream" ∧
    classifyType ".yaml" = "data" ∧
    detectMIME "a.yaml" = "application/octet-stream" := by
  refine ⟨?_, by decide, by decide, by decide, by decide, by decide, by decide⟩
  intro p h
  simp only [detectMIME]
  split_ifs with h1 h2 h3 h4 h5
  · rw [h1] at h; exact absurd h (by decide)
  · rw [h2] at h; exact absurd h (by decide)
  · rw [h3] at h; exact absurd h (by decide)
  · rw [h4] at h; exact absurd h (by decide)
  · rw [h5] at h; exact absurd h (by decide)
  · rfl

/-- C10 witness: `.MD` is classified `binary` and its MIME type is the
octet-stream default. -/
theorem C10_witness : detectMIME "file.MD" = "application/octet-stream" :=
  C10_binary_mime_consistency.1 "file.MD" (by decide)

/-- C1: for every successful `BuildBundle` run, the returned bundle
satisfies `Summary.TotalFiles = Files.length` and `Summary.TotalSize`
equals the sum of `SizeBytes` over all records in `Files`. -/
theorem C1_summary_totals (b : Bundler) (now : Int) (root : FSTree)
    (out : Bundle) (h : BuildBundle b now root = .ok out) :
    out.Summary.TotalFiles = out.Files.length ∧
    out.Summary.TotalSize = (out.Files.map (·.SizeBytes)).sum := by
  obtain ⟨files, -, rfl⟩ := BuildBundle_ok h
  refine ⟨rfl, ?_⟩
  simpa using foldl_size files 0

/-- C1 witness: the totals invariant on the concrete sample build. -/
theorem C1_witness :
    sampleBundle.Summary.TotalFiles = sampleBundle.Files.length ∧
    sampleBundle.Summary.TotalSize =
      (sampleBundle.Files.map (·.SizeBytes)).sum :=
  C1_summary_totals ⟨"/r", false⟩ 0 sampleRoot sampleBundle (by rfl)

/-- C5: in every bundle returned by `BuildBundle`, `Summary.AvgTokens` is
exactly `0` when there are zero files, and otherwise equals
`Summary.TotalTokens / Summary.TotalFiles` (exactly: the division is
`0 / n = 0`, so no rounding is involved). -/
theorem C5_avg_tokens (b : Bundler) (now : Int) (root : FSTree)
    (out : Bundle) (h : BuildBundle b now root = .ok out) :
    (out.Summary.TotalFiles = 0 → out.Summary.AvgTokens = 0) ∧
    (out.Summary.TotalFiles ≠ 0 →
      out.Summary.AvgTokens =
        (out.Summary.TotalTokens : ℚ) / (out.Summary.TotalFiles : ℚ)) := by
  obtain ⟨files, -, rfl⟩ := BuildBundle_ok h
  refine ⟨fun _ => rfl, fun _ => ?_⟩
  simp

/-- C5 witness: the average-tokens equation on the concrete sample build,
which has a nonzero file count. -/
theorem C5_witness :
    sampleBundle.Summary.TotalFiles ≠ 0 ∧
    sampleBundle.Summary.AvgTokens =
      (sampleBundle.Summary.TotalTokens : ℚ) /
        (sampleBundle.Summary.TotalFiles : ℚ) :=
  ⟨by decide,
    (C5_avg_tokens ⟨"/r", false⟩ 0 sampleRoot sampleBundle (by rfl)).2
      (by decide)⟩

/-- C6 counterexample: a successful build over one file leaves
`Summary.LargestFile` equal to `""`, which identifies no file — the only
record's path, relative path and name are all `"a.txt"`-based and
nonempty. -/
theorem C6_counterexample :
    (BuildBundle ⟨"/r", false⟩ 0
        (.dir "r" (.cons (.file "a.txt" 3 7) .nil))).toOption.map
        (fun out => (out.Summary.LargestFile, out.Summary.LargestTokens,
          out.Files.map fun f => (f.Path, f.RelativePath, f.Name))) =
      some ("", 0, [("/r/a.txt", "a.txt", "a.txt")]) := by decide

/-- C6 (amended): in every bundle returned by `BuildBundle`,
`Summary.LargestFile` is the empty string and `Summary.LargestTokens` is
`0`: summary finalization populates only the file count and total size and
never identifies a largest file. -/
theorem C6_largest_unset (b : Bundler) (now : Int) (root : FSTree)
    (out : Bundle) (h : BuildBundle b now root = .ok out) :
    out.Summary.LargestFile = "" ∧ out.Summary.LargestTokens = 0 := by
  obtain ⟨files, -, rfl⟩ := BuildBundle_ok h
  exact ⟨rfl, rfl⟩

/-- C6 witness: the unset largest-file fields on the concrete sample
build. -/
theorem C6_witness :
    sampleBundle.Summary.LargestFile = "" ∧
    sampleBundle.Summary.LargestTokens = 0 :=
  C6_largest_unset ⟨"/r", false⟩ 0 sampleRoot sampleBundle (by rfl)

/-- C7: building over an existing empty directory succeeds and yields a
bundle with an empty file list, `Summary.TotalFiles = 0` and
`Summary.AvgTokens = 0`, in both recursion modes. -/
theorem C7_empty_dir (rp n : String) (rcv : Bool) (now : Int) :
    ∃ out, BuildBundle ⟨rp, rcv⟩ now (.dir n .nil) = .ok out ∧
      out.Files = [] ∧ out.Summary.TotalFiles = 0 ∧
      out.Summary.AvgTokens = 0 := by
  have h : BuildBundle ⟨rp, rcv⟩ now (.dir n .nil) = .ok
      { Version := "1.0", CreatedAt := now, SourceDir := rp,
        Description := "Generated bundle (metadata only)", Files := [],
        Summary := { TotalFiles := 0, TotalTokens := 0, TotalSize := 0,
                     AvgTokens := 0, LargestFile := "", LargestTokens := 0,
                     EstimatedModel := "" },
        Generator := "aingest v0.1.0", TokenSettings := [] } := by
    simp [BuildBundle, filepathWalk, walkTree, walkFn, walkSiblings,
      walkFinish]
  exact ⟨_, h, rfl, rfl, rfl⟩

end AIngest
